import Mathlib

/-!
Verification of the oscar action-log / watcher / poster subsystem and of the
gaby overview page helpers. Strings are modelled as lists of characters,
machine integers as `Int` with explicit 64-bit range checks, and times as
seconds since the Unix epoch (`Int`).
-/

set_option maxRecDepth 4000

/-- Model of the whitespace predicate used by the Go standard library
(`unicode.IsSpace`): ASCII whitespace plus the Unicode space separators. -/
def goIsSpace (c : Char) : Bool :=
  c.toNat = 9 || c.toNat = 10 || c.toNat = 11 || c.toNat = 12 ||
  c.toNat = 13 || c.toNat = 32 ||
  c.toNat = 0x85 || c.toNat = 0xA0 || c.toNat = 0x1680 ||
  (0x2000 ≤ c.toNat && c.toNat ≤ 0x200A) ||
  c.toNat = 0x2028 || c.toNat = 0x2029 || c.toNat = 0x202F ||
  c.toNat = 0x205F || c.toNat = 0x3000

/-- Model of Go `strings.TrimSpace`: drop whitespace from both ends. -/
def trimSpace (s : List Char) : List Char :=
  ((s.dropWhile goIsSpace).reverse.dropWhile goIsSpace).reverse

/-- Model of Go `strings.TrimPrefix`: drop `pre` when it is a prefix, else
return the string unchanged. -/
def dropPre (pre s : List Char) : List Char :=
  if pre.isPrefixOf s then s.drop pre.length else s

/-- Model of Go `strings.CutPrefix`: the remainder after `pre` when `pre` is a
prefix, else `none`. -/
def cutPre (pre s : List Char) : Option (List Char) :=
  if pre.isPrefixOf s then some (s.drop pre.length) else none

/-- Model of Go `strings.Cut` specialised to a one-character separator: split
at the first occurrence of `c`. -/
def cutChar (c : Char) : List Char → Option (List Char × List Char)
  | [] => none
  | a :: rest =>
    if a = c then some ([], rest)
    else
      match cutChar c rest with
      | some (pre, post) => some (a :: pre, post)
      | none => none

/-- Whether `pat` occurs in `s` starting at position `i`. -/
def matchesAt (pat s : List Char) (i : Nat) : Bool :=
  pat.isPrefixOf (s.drop i)

/-- Model of Go `strings.LastIndex`: the largest position at which `pat`
occurs in `s`, or `none` when `pat` does not occur. -/
def lastIndex (pat s : List Char) : Option Nat :=
  ((List.range (s.length + 1)).filter (fun i => matchesAt pat s i)).max?

/-- Decimal value of a digit string; `none` when a non-digit occurs. -/
def digitsValAux : Nat → List Char → Option Nat
  | acc, [] => some acc
  | acc, c :: rest =>
    if c.isDigit then digitsValAux (acc * 10 + (c.toNat - 48)) rest else none

/-- Decimal value of a non-empty digit string, `none` otherwise. -/
def digitsVal (s : List Char) : Option Nat :=
  if s = [] then none else digitsValAux 0 s

/-- Model of Go `strconv.ParseInt(s, 10, 64)`: optional sign, decimal digits,
value constrained to the signed 64-bit range; `none` stands for a non-nil
error (syntax or range). -/
def goParseInt64 (s : List Char) : Option Int :=
  match s with
  | [] => none
  | c :: rest =>
    if c = '-' then
      match digitsVal rest with
      | some v => if (v : Int) ≤ 2 ^ 63 then some (-(v : Int)) else none
      | none => none
    else if c = '+' then
      match digitsVal rest with
      | some v => if (v : Int) ≤ 2 ^ 63 - 1 then some v else none
      | none => none
    else
      match digitsVal s with
      | some v => if (v : Int) ≤ 2 ^ 63 - 1 then some v else none
      | none => none

/-- The inner `split` closure of `parseIssueNumber` in
`internal/gaby/overview.go`: strip an optional https scheme, then recognize
the github.com, go.dev and `proj#num` forms, returning (project, numeric
part). -/
def splitIssueID (q : List Char) : List Char × List Char :=
  let q1 := dropPre (("https://").data) q
  match cutPre (("github.com/").data) q1 with
  | some proj =>
    match lastIndex (("/issues/").data) proj with
    | none => ([], q1)
    | some i => (proj.take i, proj.drop (i + ("/issues/").length))
  | none =>
    match cutPre (("go.dev/issues/").data) q1 with
    | some num => ((("golang/go").data), num)
    | none =>
      match cutChar '#' q1 with
      | some (proj, num) => (proj, num)
      | none => ([], q1)

/-- Model of `parseIssueNumber` in `internal/gaby/overview.go`. `none` models
a non-nil error; `some (proj, n)` models the successful return `(proj, n,
nil)`. A whitespace-only input returns `some ([], 0)`, mirroring
`return "", 0, nil`. -/
def parseIssueNumber (s : List Char) : Option (List Char × Int) :=
  let t := trimSpace s
  if t = [] then some ([], 0)
  else
    match goParseInt64 (splitIssueID t).2 with
    | some n => if 0 < n then some ((splitIssueID t).1, n) else none
    | none => none

/-- The overview-type tag for an issue overview (`internal/gaby/overview.go`). -/
def issueOverviewType : String := "issue_overview"

/-- The overview-type tag for a related-documents overview. -/
def relatedOverviewType : String := "related_overview"

/-- The overview-type tag for an update overview. -/
def updateOverviewType : String := "update_overview"

/-- Model of `validOverviewType`: whether the tag is one of the three
recognized overview types. -/
def validOverviewType (t : String) : Bool :=
  t = issueOverviewType || t = relatedOverviewType || t = updateOverviewType

/-- Model of `overviewParams.checkRadio`: the radio button for `value` is
checked when it matches the requested overview type, defaulting to the issue
overview when the requested type is not valid. -/
def checkRadio (otype value : String) : Bool :=
  if !validOverviewType otype then value = issueOverviewType
  else value = otype

/-- The raw overview-page parameters (`overviewParams`), with the query and
last-read-comment fields as character lists. -/
structure OverviewParams where
  query : List Char
  lastReadComment : List Char
  overviewType : String

/-- The project defaulting step of `Gaby.overview`: an empty parsed project
falls back to the first configured github project, when there is one. -/
def defaultProj (proj0 : List Char) (githubProjects : List (List Char)) : List Char :=
  match proj0, githubProjects with
  | [], p :: _ => p
  | _, _ => proj0

/-- Model of `Gaby.overview`: parse the issue number, default and validate the
project, then dispatch on the overview type. The three generators are
abstract parameters so that dispatching can be stated independently of their
behavior; errors carry a message. -/
def gabyOverview {α : Type} (githubProjects : List (List Char))
    (issueGen : List Char → Int → Except (List Char) α)
    (relatedGen : List Char → Int → Except (List Char) α)
    (updateGen : List Char → Int → Int → Except (List Char) α)
    (pm : OverviewParams) : Except (List Char) α :=
  match parseIssueNumber pm.query with
  | none => Except.error (("invalid form value").data)
  | some (proj0, issue) =>
    let proj := defaultProj proj0 githubProjects
    if githubProjects.contains proj then
      if pm.overviewType = "" || pm.overviewType = issueOverviewType then
        issueGen proj issue
      else if pm.overviewType = relatedOverviewType then
        relatedGen proj issue
      else if pm.overviewType = updateOverviewType then
        match goParseInt64 (trimSpace pm.lastReadComment) with
        | some lastRead => updateGen proj issue lastRead
        | none => Except.error (("invalid comment id").data)
      else Except.error (("unknown overview type").data)
    else Except.error (("unrecognized project").data)

/-! ### Spec-modelled core: Action Log, Runner, Watcher Cursor, Poster

The implementation of the action log, runner, watcher cursor and poster is
not present under the repository sources here (only its tests are), so the
definitions below are modelled from the specification, sections 3 to 5. -/

namespace Oscar

/-- Modelled from the spec: one year, the documented default for MaxIssueAge
when it is unset (0); times are seconds, so one year is 365 days. -/
def oneYear : Int := 365 * 86400

/-- Days since the Unix epoch of a Gregorian calendar date (the standard
civil-days computation); used to express calendar dates as instants. -/
def daysFromCivil (y m d : Int) : Int :=
  let yy := if m ≤ 2 then y - 1 else y
  let era := (if 0 ≤ yy then yy else yy - 399) / 400
  let yoe := yy - era * 400
  let mp := (m + 9) % 12
  let doy := (153 * mp + 2) / 5 + d - 1
  let doe := yoe * 365 + yoe / 4 - yoe / 100 + doy
  era * 146097 + doe - 719468

/-- Seconds since the Unix epoch at midnight UTC of a calendar date. -/
def utcMidnight (y m d : Int) : Int := daysFromCivil y m d * 86400

/-- Modelled from the spec: one item of the event source, an ordered,
monotonically-sequenced stream of items per project. -/
structure Item where
  seq : Nat
  project : List Char
  title : List Char
  body : List Char
  createdAt : Int
  commentCount : Nat
deriving DecidableEq

/-- Modelled from the spec: an ordered skip rule, one of the title-start,
title-end and body-substring predicate kinds. -/
inductive SkipRule where
  | byTitleStart (s : List Char)
  | byTitleEnd (s : List Char)
  | byBodyHas (s : List Char)
deriving DecidableEq

/-- Whether `pat` occurs somewhere in `s`. -/
def hasInfix (pat s : List Char) : Bool :=
  (lastIndex pat s).isSome

/-- Whether a skip rule matches an item. -/
def SkipRule.matchesItem : SkipRule → Item → Bool
  | .byTitleStart s, it => s.isPrefixOf it.title
  | .byTitleEnd s, it => s.isSuffixOf it.title
  | .byBodyHas s, it => hasInfix s it.body

/-- Modelled from the spec: the poster policy, configured once before use. -/
structure Policy where
  enabledProjects : List (List Char)
  minComments : Nat
  maxIssueAge : Int
  autoApprove : Bool
  skipRules : List SkipRule
  minScore : Rat
  maxResults : Nat
  timeLimit : Int

/-- The age limit in force: MaxIssueAge, or the documented default (one year)
when MaxIssueAge is unset (0). -/
def effectiveMaxAge (pol : Policy) : Int :=
  if pol.maxIssueAge = 0 then oneYear else pol.maxIssueAge

/-- Modelled from the spec: the age eligibility test, `Age(now) ≤
MaxIssueAge`, with age exactly equal to the limit eligible. -/
def ageOK (pol : Policy) (now created : Int) : Bool :=
  decide (now - created ≤ effectiveMaxAge pol)

/-- Whether some configured skip rule matches the item (checked in
configuration order; any match skips). -/
def skipMatch (pol : Policy) (it : Item) : Bool :=
  pol.skipRules.any (fun r => r.matchesItem it)

/-- Modelled from the spec: per-item eligibility — enabled project, comment
count at least MinComments, age within the limit and no skip-rule match. -/
def eligible (pol : Policy) (now : Int) (it : Item) : Bool :=
  pol.enabledProjects.contains it.project &&
  decide (pol.minComments ≤ it.commentCount) &&
  ageOK pol now it.createdAt &&
  !skipMatch pol it

/-- Modelled from the spec: an Action record of the action log. The
fingerprint is the sole idempotency key; `approved` is the approval state,
`executed` and `failed` record the runner outcome. -/
structure Action where
  fingerprint : List Char
  payload : List Char
  approved : Bool
  executed : Bool
  failed : Bool
deriving DecidableEq

/-- The deterministic content fingerprint an Action is keyed by, derived from
kind, target (project and item) and canonicalized content. -/
def fingerprintOf (kind project : List Char) (seq : Nat) (payload : List Char) : List Char :=
  kind ++ ':' :: project ++ '#' :: (Nat.toDigits 10 seq) ++ ':' :: payload

/-- The fresh Action a poster builds for an item, entering the approval state
selected by the policy. -/
def mkAction (pol : Policy) (kind : List Char) (it : Item) (payload : List Char) : Action :=
  { fingerprint := fingerprintOf kind it.project it.seq payload
    payload := payload
    approved := pol.autoApprove
    executed := false
    failed := false }

/-- Modelled from the spec: `Submit` of the action log — an idempotent insert
keyed by the fingerprint. When the fingerprint already exists the log is
returned untouched together with `inserted = false`. -/
def submit (log : List Action) (a : Action) : List Action × Bool :=
  if log.any (fun b => b.fingerprint == a.fingerprint) then (log, false)
  else (log ++ [a], true)

/-- Modelled from the spec: `MarkExecuted` — a conditional update recording
the outcome on the action, succeeding only when the action is not yet
executed. -/
def markExecuted (log : List Action) (fp : List Char) (ok : Bool) : List Action :=
  log.map (fun b =>
    if b.fingerprint == fp && !b.executed then
      { b with executed := true, failed := !ok }
    else b)

/-- Modelled from the spec: the poster state persisted in the durable store —
the action log, the watcher cursor and the record of performed external side
effects (one fingerprint per comment/edit, in order). -/
structure PState where
  log : List Action
  cursor : Nat
  effects : List (List Char)
deriving DecidableEq

/-- Modelled from the spec: the error taxonomy of the decide callback. -/
inductive DecideErr where
  | vectorSearchFailed
  | genFailed
deriving DecidableEq

/-- Modelled from the spec: errors `Post` reports to the caller. -/
inductive PostErr where
  | notFound
  | decisionFailure (e : DecideErr)
deriving DecidableEq

/-- Outcomes of a successful `Post` call. -/
inductive PostResult where
  | posted
  | alreadyPosted
  | nothingToPost
deriving DecidableEq

/-- Modelled from the spec: the report a runner pass returns. -/
structure Report where
  completed : Nat
  failed : Nat
deriving DecidableEq

/-- Whether the runner must pick up this action: approved and not yet
executed. -/
def runPending (a : Action) : Bool := a.approved && !a.executed

/-- Modelled from the spec: the runner drain. It walks the log in order; for
each approved, unexecuted action it invokes the handler, records the outcome
on that action, counts it in the report, appends the external effect on
success, and continues with the remaining actions. -/
def runner (handler : List Char → Except (List Char) (List Char)) :
    List Action → List (List Char) → List Action × List (List Char) × Report
  | [], effs => ([], effs, ⟨0, 0⟩)
  | a :: rest, effs =>
    if runPending a then
      match handler a.payload with
      | Except.ok _ =>
        let r := runner handler rest (effs ++ [a.fingerprint])
        ({ a with executed := true } :: r.1, r.2.1,
          { r.2.2 with completed := r.2.2.completed + 1 })
      | Except.error _ =>
        let r := runner handler rest effs
        ({ a with executed := true, failed := true } :: r.1, r.2.1,
          { r.2.2 with failed := r.2.2.failed + 1 })
    else
      let r := runner handler rest effs
      (a :: r.1, r.2.1, r.2.2)

/-- Modelled from the spec: processing of one streamed item during `Run`. If
the item is eligible the decide callback runs; a produced payload is
submitted through the approval gate, a decide failure is reported and the
scan continues. Regardless of eligibility or outcome the cursor advances to
the sequence number of the item. -/
def processItem (pol : Policy) (decideFn : Item → Except DecideErr (Option (List Char)))
    (kind : List Char) (now : Int) (s : PState) (it : Item) : PState :=
  let s1 :=
    if eligible pol now it then
      match decideFn it with
      | Except.ok (some payload) =>
        { s with log := (submit s.log (mkAction pol kind it payload)).1 }
      | Except.ok none => s
      | Except.error _ => s
    else s
  { s1 with cursor := it.seq }

/-- The items a `Run` starting from state `s` evaluates: the stream restricted
to sequence numbers strictly after the persisted cursor. -/
def runEvaluated (s : PState) (source : List Item) : List Item :=
  source.filter (fun it => decide (s.cursor < it.seq))

/-- The scan phase of `Run`: evaluate each streamed item in order. -/
def runScan (pol : Policy) (decideFn : Item → Except DecideErr (Option (List Char)))
    (kind : List Char) (now : Int) (s : PState) (items : List Item) : PState :=
  items.foldl (processItem pol decideFn kind now) s

/-- Modelled from the spec: `Run` — stream the items strictly after the
cursor, evaluate each, then invoke the runner on the log and return its
report. -/
def run (pol : Policy) (decideFn : Item → Except DecideErr (Option (List Char)))
    (kind : List Char) (handler : List Char → Except (List Char) (List Char))
    (now : Int) (source : List Item) (s : PState) : PState × Report :=
  let s1 := runScan pol decideFn kind now s (runEvaluated s source)
  let r := runner handler s1.log s1.effects
  ({ log := r.1, cursor := s1.cursor, effects := r.2.1 }, r.2.2)

/-- Lookup of the named item in the event source. -/
def findItem (source : List Item) (project : List Char) (num : Nat) : Option Item :=
  source.find? (fun it => it.project == project && it.seq == num)

/-- Modelled from the spec: `Post` — bypass the cursor and the eligibility
filters, synthesize and submit an Action for exactly the named item, then
drive execution of that single action synchronously. A missing item fails
with NotFound, a decide failure is reported as such; a repeat Post detects
the existing fingerprint and reports "already posted" with no side effect. -/
def post (pol : Policy) (decideFn : Item → Except DecideErr (Option (List Char)))
    (kind : List Char) (handler : List Char → Except (List Char) (List Char))
    (source : List Item) (project : List Char) (num : Nat) (s : PState) :
    Except PostErr PostResult × PState :=
  match findItem source project num with
  | none => (Except.error PostErr.notFound, s)
  | some it =>
    match decideFn it with
    | Except.error e => (Except.error (PostErr.decisionFailure e), s)
    | Except.ok none => (Except.ok PostResult.nothingToPost, s)
    | Except.ok (some payload) =>
      let a := mkAction pol kind it payload
      let sub := submit s.log a
      if sub.2 then
        if pol.autoApprove then
          match handler payload with
          | Except.ok _ =>
            (Except.ok PostResult.posted,
              { log := markExecuted sub.1 a.fingerprint true
                cursor := s.cursor
                effects := s.effects ++ [a.fingerprint] })
          | Except.error _ =>
            (Except.ok PostResult.posted,
              { log := markExecuted sub.1 a.fingerprint false
                cursor := s.cursor
                effects := s.effects })
        else (Except.ok PostResult.posted, { s with log := sub.1 })
      else (Except.ok PostResult.alreadyPosted, { s with log := sub.1 })

/-- Modelled from the spec: one ranked candidate returned by the similarity
index. -/
structure Candidate where
  target : List Char
  score : Rat
  createdAt : Int
deriving DecidableEq

/-- Whether a candidate passes the ranked-poster policy: score at least
MinScore and creation strictly before TimeLimit (candidates created at or
after that instant are excluded). -/
def candOK (pol : Policy) (c : Candidate) : Bool :=
  decide (pol.minScore ≤ c.score) && decide (c.createdAt < pol.timeLimit)

/-- Modelled from the spec: the ranked-candidate list the decide callback
emits — the ranked input filtered by MinScore and TimeLimit, truncated to
MaxResults. -/
def rankedList (pol : Policy) (cands : List Candidate) : List Candidate :=
  (cands.filter (candOK pol)).take pol.maxResults

/-- Rendering of the emitted candidate list as the Action payload, one line
per candidate in order. -/
def renderPayload (out : List Candidate) : List Char :=
  out.foldr (fun c acc => c.target ++ '\n' :: acc) []

/-- The lookup key of an item in the similarity index. -/
def itemKey (it : Item) : List Char :=
  it.project ++ '#' :: Nat.toDigits 10 it.seq

/-- Modelled from the spec: the similarity-index query; it fails with a
vector-search failure when the subject has no embedding. -/
def rankedLookup (embeddings : List (List Char × List Candidate)) (it : Item) :
    Except DecideErr (List Candidate) :=
  match embeddings.find? (fun p => p.1 == itemKey it) with
  | some p => Except.ok p.2
  | none => Except.error DecideErr.vectorSearchFailed

/-- Modelled from the spec: the ranked-candidate decide callback — query the
similarity index, filter, truncate, and render; an empty emitted list means
there is nothing to post. -/
def rankedDecide (pol : Policy) (lookup : Item → Except DecideErr (List Candidate))
    (it : Item) : Except DecideErr (Option (List Char)) :=
  match lookup it with
  | Except.error e => Except.error e
  | Except.ok cands =>
    let out := rankedList pol cands
    if out = [] then Except.ok none else Except.ok (some (renderPayload out))

/-- A candidate list ranked by descending score. -/
def scoreSorted (l : List Candidate) : Prop :=
  l.Pairwise (fun a b => b.score ≤ a.score)

/-! ### Interleaving model for concurrent Run and Post.

The spec relies on the atomic single-key writes of the store: the critical
section of each item is the atomic fingerprint-keyed Submit followed by the
execution its winner performs. A concurrent Run and Post therefore behave
like some sequential interleaving of these per-item atomic events. -/

/-- One atomic submit-and-execute event of a concurrent history, tagged by
whether it belongs to the scanning `Run` or to the direct `Post`. -/
structure CEvent where
  fromRun : Bool
  item : Item
  payload : List Char
deriving DecidableEq

/-- The fingerprint an event submits under. -/
def fpOfEvent (kind : List Char) (e : CEvent) : List Char :=
  fingerprintOf kind e.item.project e.item.seq e.payload

/-- State of a concurrent history: the shared poster state plus the counts of
items each side actually executed (its contribution to its report). -/
structure CState where
  ps : PState
  runExecuted : Nat
  postExecuted : Nat
deriving DecidableEq

/-- One atomic event against the shared store: Submit keyed by the
fingerprint; only on insertion does the submitter execute the action,
perform the external effect and count it as its own. -/
def cstep (pol : Policy) (kind : List Char)
    (handler : List Char → Except (List Char) (List Char))
    (s : CState) (e : CEvent) : CState :=
  let a := mkAction pol kind e.item e.payload
  let sub := submit s.ps.log a
  if sub.2 then
    match handler e.payload with
    | Except.ok _ =>
      { ps := { log := markExecuted sub.1 a.fingerprint true
                cursor := s.ps.cursor
                effects := s.ps.effects ++ [a.fingerprint] }
        runExecuted := if e.fromRun then s.runExecuted + 1 else s.runExecuted
        postExecuted := if e.fromRun then s.postExecuted else s.postExecuted + 1 }
    | Except.error _ =>
      { ps := { log := markExecuted sub.1 a.fingerprint false
                cursor := s.ps.cursor
                effects := s.ps.effects }
        runExecuted := s.runExecuted
        postExecuted := s.postExecuted }
  else { s with ps := { s.ps with log := sub.1 } }

/-- Sequential execution of a history of atomic events. -/
def cexec (pol : Policy) (kind : List Char)
    (handler : List Char → Except (List Char) (List Char))
    (s : CState) (evs : List CEvent) : CState :=
  evs.foldl (cstep pol kind handler) s

/-- The history in which the single `Post` event lands between the first `k`
and the remaining events of the `Run`. -/
def schedule (runEvs : List CEvent) (p : CEvent) (k : Nat) : List CEvent :=
  runEvs.take k ++ p :: runEvs.drop k

/-! ### Concrete fixtures, mirroring the test data of the spec scenarios. -/

/-- The test project. -/
def tProject : List Char := ("test/test").data

/-- The action kind of the modelled poster. -/
def tKind : List Char := ("related").data

/-- A permissive policy: the test project enabled, MinComments 1, default
MaxIssueAge, auto-approval, no skip rules. -/
def tPolicy : Policy :=
  { enabledProjects := [tProject]
    minComments := 1
    maxIssueAge := 0
    autoApprove := true
    skipRules := []
    minScore := 0
    maxResults := 10
    timeLimit := 0 }

/-- A handler that always succeeds. -/
def tOkHandler : List Char → Except (List Char) (List Char) :=
  fun _ => Except.ok []

/-- The evaluation instant of the spec scenarios: 2024-01-01T00:00:00Z. -/
def tNow : Int := utcMidnight 2024 1 1

/-- An item created 2023-01-01T00:00:00Z, exactly one year before `tNow`. -/
def tItemYear : Item :=
  { seq := 1
    project := tProject
    title := ("issue one").data
    body := []
    createdAt := utcMidnight 2023 1 1
    commentCount := 1 }

/-- An item created 2022-12-31T00:00:00Z, one day past the one-year limit. -/
def tItemOld : Item :=
  { seq := 2
    project := tProject
    title := ("issue two").data
    body := []
    createdAt := utcMidnight 2022 12 31
    commentCount := 1 }

/-- The skip-rule scenario item of the spec. -/
def tSkipItem : Item :=
  { seq := 3
    project := tProject
    title := ("feature: synthesize lowercase anchors for heading").data
    body := []
    createdAt := tNow
    commentCount := 1 }

/-- The policy of the skip-rule scenario: skip titles starting
"feature: ". -/
def tSkipPolicy : Policy :=
  { tPolicy with skipRules := [SkipRule.byTitleStart (("feature: ").data)] }

/-- The empty initial poster state. -/
def tState : PState := { log := [], cursor := 0, effects := [] }

/-- The ranked-poster policy of the spec example: MaxResults 1. -/
def tRankedPolicy : Policy :=
  { tPolicy with maxResults := 1, timeLimit := 100 }

/-- The 0.92-scoring candidate of the spec example. -/
def cand92 : Candidate := { target := ("i6").data, score := 0.92, createdAt := 0 }

/-- The 0.87-scoring candidate of the spec example. -/
def cand87 : Candidate := { target := ("i9").data, score := 0.87, createdAt := 0 }

/-- First Run-side event of the concurrency scenario. -/
def ev1 : CEvent := { fromRun := true, item := tItemYear, payload := ("p1").data }

/-- Second Run-side event of the concurrency scenario. -/
def ev2 : CEvent := { fromRun := true, item := tItemOld, payload := ("p2").data }

/-- The Post-side event of the concurrency scenario, on an item disjoint from
the Run events. -/
def evPost : CEvent := { fromRun := false, item := tSkipItem, payload := ("p3").data }

end Oscar

/-! ### Theorems -/

open Oscar

/-- C10 counterexample: the claim states that checkRadio marks the
issue-overview radio button exactly when the OverviewType is unset or
invalid; yet for the set and valid OverviewType `issue_overview` the
issue-overview button is also marked. -/
theorem c10_checkradio_counterexample :
    checkRadio issueOverviewType issueOverviewType = true ∧
    validOverviewType issueOverviewType = true ∧
    issueOverviewType ≠ ("") := by
  refine ⟨by decide, by decide, by decide⟩

/-- C10 (amended): an empty OverviewType is dispatched identically to
issue_overview; an unrecognized non-empty type makes overview return the
unknown-overview-type error for every choice of generators (so no generator
is consulted); exactly one of the three radio choices is checked for every
input string; and checkRadio marks the issue-overview radio button exactly
when the OverviewType is unset, invalid, or issue_overview itself. -/
theorem c10_overview_dispatch :
    (∀ (α : Type) (projects : List (List Char))
        (iGen rGen : List Char → Int → Except (List Char) α)
        (uGen : List Char → Int → Int → Except (List Char) α)
        (q lc : List Char),
        gabyOverview projects iGen rGen uGen ⟨q, lc, ""⟩ =
          gabyOverview projects iGen rGen uGen ⟨q, lc, issueOverviewType⟩) ∧
    (∀ (α : Type) (projects : List (List Char))
        (iGen rGen : List Char → Int → Except (List Char) α)
        (uGen : List Char → Int → Int → Except (List Char) α)
        (q lc : List Char) (t : String),
        validOverviewType t = false → t ≠ ("") →
        ∀ p0 n, parseIssueNumber q = some (p0, n) →
        projects.contains (defaultProj p0 projects) = true →
        gabyOverview projects iGen rGen uGen ⟨q, lc, t⟩ =
          Except.error (("unknown overview type").data)) ∧
    (∀ t : String,
        (if checkRadio t issueOverviewType then 1 else 0) +
          (if checkRadio t relatedOverviewType then 1 else 0) +
          (if checkRadio t updateOverviewType then 1 else 0) = 1) ∧
    (∀ t : String, checkRadio t issueOverviewType = true ↔
        (validOverviewType t = false ∨ t = issueOverviewType)) := by
  refine ⟨?_, ?_, ?_, ?_⟩
  · intro α projects iGen rGen uGen q lc
    cases hq : parseIssueNumber q with
    | none => simp [gabyOverview, hq]
    | some pr =>
      obtain ⟨p0, n⟩ := pr
      simp [gabyOverview, hq]
  · intro α projects iGen rGen uGen q lc t hvalid hne p0 n hq hcont
    have h3 : ¬(t = issueOverviewType) ∧ ¬(t = relatedOverviewType) ∧
        ¬(t = updateOverviewType) := by
      simpa [validOverviewType, and_assoc] using hvalid
    have hmem : defaultProj p0 projects ∈ projects := by simpa using hcont
    simp [gabyOverview, hq, hmem, hne, h3.1, h3.2.1, h3.2.2]
  · intro t
    by_cases hv : validOverviewType t = true
    · have hd : t = issueOverviewType ∨ t = relatedOverviewType ∨
          t = updateOverviewType := by
        simpa [validOverviewType, or_assoc] using hv
      rcases hd with h | h | h <;> subst h <;> decide
    · simp only [Bool.not_eq_true] at hv
      have e1 : checkRadio t issueOverviewType = true := by
        simp [checkRadio, hv]
      have e2 : checkRadio t relatedOverviewType = false := by
        simp only [checkRadio, hv, Bool.not_false, if_true]
        decide
      have e3 : checkRadio t updateOverviewType = false := by
        simp only [checkRadio, hv, Bool.not_false, if_true]
        decide
      simp [e1, e2, e3]
  · intro t
    by_cases hv : validOverviewType t = true
    · simp [checkRadio, hv, eq_comm]
    · simp only [Bool.not_eq_true] at hv
      simp [checkRadio, hv]

/-- C10 witness: the dispatch clause applied at a concrete unrecognized
overview type. -/
theorem c10_overview_dispatch_witness :
    (validOverviewType ("bogus") = false ∧ ("bogus" : String) ≠ ("") ∧
      parseIssueNumber (("golang/go#5").data) = some ((("golang/go").data), 5) ∧
      [(("golang/go").data)].contains
        (defaultProj (("golang/go").data) [(("golang/go").data)]) = true) ∧
    gabyOverview [(("golang/go").data)]
      (fun _ _ => Except.ok ()) (fun _ _ => Except.ok ())
      (fun _ _ _ => Except.ok ())
      ⟨(("golang/go#5").data), [], "bogus"⟩ =
      Except.error (("unknown overview type").data) := by
  refine ⟨⟨by decide, by decide, by decide, by decide⟩, ?_⟩
  exact c10_overview_dispatch.2.1 Unit _ _ _ _ _ _ ("bogus")
    (by decide) (by decide) (("golang/go").data) 5 (by decide) (by decide)

/-- C3: the age-eligibility boundary is inclusive — age exactly equal to the
limit in force is eligible and one unit past is not; an unset MaxIssueAge
means the documented one-year default; and concretely, at evaluation instant
2024-01-01T00:00:00Z with the default limit, an item created
2023-01-01T00:00:00Z is eligible while one created 2022-12-31T00:00:00Z is
not. -/
theorem c3_age_boundary :
    (∀ (pol : Policy) (now created : Int),
        now - created = effectiveMaxAge pol → ageOK pol now created = true) ∧
    (∀ (pol : Policy) (now created : Int),
        now - created = effectiveMaxAge pol + 1 → ageOK pol now created = false) ∧
    (∀ pol : Policy, pol.maxIssueAge = 0 → effectiveMaxAge pol = oneYear) ∧
    eligible tPolicy tNow tItemYear = true ∧
    eligible tPolicy tNow tItemOld = false := by
  refine ⟨?_, ?_, ?_, by decide, by decide⟩
  · intro pol now created h
    simp only [ageOK, h, decide_eq_true_eq]
    omega
  · intro pol now created h
    simp only [ageOK, h, decide_eq_false_iff_not]
    omega
  · intro pol h
    simp [effectiveMaxAge, h]

/-- C3 witness: the boundary clauses applied at a concrete policy and
instants. -/
theorem c3_age_boundary_witness :
    ((0 : Int) - (-oneYear) = effectiveMaxAge tPolicy ∧
      ageOK tPolicy 0 (-oneYear) = true) ∧
    ((0 : Int) - (-(oneYear + 1)) = effectiveMaxAge tPolicy + 1 ∧
      ageOK tPolicy 0 (-(oneYear + 1)) = false) ∧
    (tPolicy.maxIssueAge = 0 ∧ effectiveMaxAge tPolicy = oneYear) := by
  refine ⟨⟨by decide, c3_age_boundary.1 tPolicy 0 (-oneYear) (by decide)⟩,
    ⟨by decide, c3_age_boundary.2.1 tPolicy 0 (-(oneYear + 1)) (by decide)⟩,
    ⟨by decide, c3_age_boundary.2.2.1 tPolicy (by decide)⟩⟩

/-- C5: skip rules suppress the action but not progress — any configured
matching rule makes the item skip-match, a skip-matching item is never
eligible, processing such an item leaves the log and effects untouched while
still advancing the cursor to its sequence number, and concretely the
SkipTitlePrefix rule for "feature: " suppresses the action for the item
titled "feature: synthesize lowercase anchors for heading" while the cursor
still advances past it. -/
theorem c5_skip_rules :
    (∀ (pol : Oscar.Policy) (it : Oscar.Item) (r : Oscar.SkipRule),
        r ∈ pol.skipRules → r.matchesItem it = true →
        Oscar.skipMatch pol it = true) ∧
    (∀ (pol : Oscar.Policy) (now : Int) (it : Oscar.Item),
        Oscar.skipMatch pol it = true → Oscar.eligible pol now it = false) ∧
    (∀ (pol : Oscar.Policy) (decideFn : Oscar.Item → Except Oscar.DecideErr (Option (List Char)))
        (kind : List Char) (now : Int) (s : Oscar.PState) (it : Oscar.Item),
        Oscar.skipMatch pol it = true →
        Oscar.processItem pol decideFn kind now s it = { s with cursor := it.seq }) ∧
    (Oscar.SkipRule.byTitleStart (("feature: ").data)).matchesItem tSkipItem = true ∧
    Oscar.processItem tSkipPolicy (fun _ => Except.ok (some (('x') :: [])))
        tKind tNow tState tSkipItem = { tState with cursor := tSkipItem.seq } := by
  have hskip : ∀ (pol : Oscar.Policy) (now : Int) (it : Oscar.Item),
      Oscar.skipMatch pol it = true → Oscar.eligible pol now it = false := by
    intro pol now it h
    simp [Oscar.eligible, h]
  refine ⟨?_, hskip, ?_, by decide, by decide⟩
  · intro pol it r hmem hmatch
    simp only [Oscar.skipMatch, List.any_eq_true]
    exact ⟨r, hmem, hmatch⟩
  · intro pol decideFn kind now s it h
    simp [Oscar.processItem, hskip pol now it h]

/-- C5 witness: the skip-rule clauses applied at the concrete
"feature: "-prefixed scenario. -/
theorem c5_skip_rules_witness :
    (Oscar.SkipRule.byTitleStart (("feature: ").data) ∈ tSkipPolicy.skipRules ∧
      (Oscar.SkipRule.byTitleStart (("feature: ").data)).matchesItem tSkipItem = true ∧
      Oscar.skipMatch tSkipPolicy tSkipItem = true) ∧
    Oscar.eligible tSkipPolicy tNow tSkipItem = false ∧
    Oscar.processItem tSkipPolicy (fun _ => Except.ok (some (('x') :: [])))
        tKind tNow tState tSkipItem = { tState with cursor := tSkipItem.seq } := by
  refine ⟨⟨by decide, by decide, by decide⟩, ?_, ?_⟩
  · exact c5_skip_rules.2.1 tSkipPolicy tNow tSkipItem (by decide)
  · exact c5_skip_rules.2.2.1 tSkipPolicy _ tKind tNow tState tSkipItem (by decide)

/-- Helper: an action just marked executed is no longer pending. -/
theorem runPending_mark (a : Oscar.Action) (f : Bool) :
    Oscar.runPending { a with executed := true, failed := f } = false := by
  simp [Oscar.runPending]

/-- C4: the runner isolates failures per action — over any drain, the failed
count is exactly the number of pending actions whose handler errs, the
completed count the number whose handler succeeds, no log entry is dropped,
no pending action remains afterwards, and the resulting log is the pointwise
marking of each pending action with its own outcome (failures recorded on
that action only), so a failing action never aborts the remaining drain. -/
theorem c4_runner_isolation :
    ∀ (handler : List Char → Except (List Char) (List Char))
      (log : List Oscar.Action) (effs : List (List Char)),
    (Oscar.runner handler log effs).2.2.failed =
        (log.filter Oscar.runPending).countP (fun a => !(handler a.payload).isOk) ∧
    (Oscar.runner handler log effs).2.2.completed =
        (log.filter Oscar.runPending).countP (fun a => (handler a.payload).isOk) ∧
    (Oscar.runner handler log effs).1.length = log.length ∧
    (Oscar.runner handler log effs).1.filter Oscar.runPending = [] ∧
    (Oscar.runner handler log effs).1 = log.map (fun a =>
        if Oscar.runPending a then
          match handler a.payload with
          | Except.ok _ => { a with executed := true }
          | Except.error _ => { a with executed := true, failed := true }
        else a) := by
  intro handler log
  induction log with
  | nil => intro effs; exact ⟨rfl, rfl, rfl, rfl, rfl⟩
  | cons a rest ih =>
    intro effs
    by_cases hp : Oscar.runPending a
    · cases hh : handler a.payload with
      | ok v =>
        obtain ⟨ihf, ihc, ihl, ihp2, ihm⟩ := ih (effs ++ [a.fingerprint])
        refine ⟨?_, ?_, ?_, ?_, ?_⟩
        · simp [Oscar.runner, hp, hh, ihf, List.countP_cons, List.filter_cons,
            Except.isOk, Except.toBool]
        · simp [Oscar.runner, hp, hh, ihc, List.countP_cons, List.filter_cons,
            Except.isOk, Except.toBool]
        · simp [Oscar.runner, hp, hh, ihl]
        · simp [Oscar.runner, hp, hh, List.filter_cons, runPending_mark, ihp2]
        · simp [Oscar.runner, hp, hh, ihm]
      | error e =>
        obtain ⟨ihf, ihc, ihl, ihp2, ihm⟩ := ih effs
        refine ⟨?_, ?_, ?_, ?_, ?_⟩
        · simp [Oscar.runner, hp, hh, ihf, List.countP_cons, List.filter_cons,
            Except.isOk, Except.toBool]
        · simp [Oscar.runner, hp, hh, ihc, List.countP_cons, List.filter_cons,
            Except.isOk, Except.toBool]
        · simp [Oscar.runner, hp, hh, ihl]
        · simp [Oscar.runner, hp, hh, List.filter_cons, runPending_mark, ihp2]
        · simp [Oscar.runner, hp, hh, ihm]
    · obtain ⟨ihf, ihc, ihl, ihp2, ihm⟩ := ih effs
      refine ⟨?_, ?_, ?_, ?_, ?_⟩
      · simp [Oscar.runner, hp, ihf, List.countP_cons, List.filter_cons]
      · simp [Oscar.runner, hp, ihc, List.countP_cons, List.filter_cons]
      · simp [Oscar.runner, hp, ihl]
      · simp [Oscar.runner, hp, List.filter_cons, ihp2]
      · simp [Oscar.runner, hp, ihm]

/-- C6: the ranked-candidate decide path is a deterministic
filter-truncate-sort — every emitted candidate scores at least MinScore and
was created strictly before TimeLimit, at most MaxResults candidates are
emitted, descending-score order is preserved, MaxResults 0 or an
all-below-MinScore candidate set emits nothing (hence no post: processing
the item leaves the log untouched while advancing the cursor), and
concretely candidates scoring 0.92 and 0.87 with MaxResults 1 yield only the
0.92 candidate while MinScore 2.0 yields none. -/
theorem c6_ranked_filter :
    (∀ (pol : Oscar.Policy) (cands : List Oscar.Candidate) (c : Oscar.Candidate),
        c ∈ Oscar.rankedList pol cands →
        pol.minScore ≤ c.score ∧ c.createdAt < pol.timeLimit) ∧
    (∀ (pol : Oscar.Policy) (cands : List Oscar.Candidate),
        (Oscar.rankedList pol cands).length ≤ pol.maxResults) ∧
    (∀ (pol : Oscar.Policy) (cands : List Oscar.Candidate),
        Oscar.scoreSorted cands → Oscar.scoreSorted (Oscar.rankedList pol cands)) ∧
    (∀ (pol : Oscar.Policy) (lookup : Oscar.Item → Except Oscar.DecideErr (List Oscar.Candidate))
        (it : Oscar.Item) (cands : List Oscar.Candidate),
        lookup it = Except.ok cands → pol.maxResults = 0 →
        Oscar.rankedDecide pol lookup it = Except.ok none) ∧
    (∀ (pol : Oscar.Policy) (lookup : Oscar.Item → Except Oscar.DecideErr (List Oscar.Candidate))
        (it : Oscar.Item) (cands : List Oscar.Candidate),
        lookup it = Except.ok cands → (∀ c ∈ cands, c.score < pol.minScore) →
        Oscar.rankedDecide pol lookup it = Except.ok none) ∧
    (∀ (pol : Oscar.Policy) (decideFn : Oscar.Item → Except Oscar.DecideErr (Option (List Char)))
        (kind : List Char) (now : Int) (s : Oscar.PState) (it : Oscar.Item),
        decideFn it = Except.ok none →
        Oscar.processItem pol decideFn kind now s it = { s with cursor := it.seq }) ∧
    Oscar.rankedList tRankedPolicy [cand92, cand87] = [cand92] ∧
    Oscar.rankedList { tRankedPolicy with minScore := 2 } [cand92, cand87] = [] := by
  refine ⟨?_, ?_, ?_, ?_, ?_, ?_,
    by norm_num [Oscar.rankedList, Oscar.candOK, tRankedPolicy, tPolicy, cand92, cand87],
    by norm_num [Oscar.rankedList, Oscar.candOK, tRankedPolicy, tPolicy, cand92, cand87]⟩
  · intro pol cands c hc
    have hf : c ∈ cands.filter (Oscar.candOK pol) :=
      List.take_subset _ _ hc
    have := List.of_mem_filter hf
    simpa [Oscar.candOK] using this
  · intro pol cands
    simp [Oscar.rankedList]
  · intro pol cands h
    exact (h.filter _).sublist (List.take_sublist _ _)
  · intro pol lookup it cands hl hm
    simp [Oscar.rankedDecide, hl, Oscar.rankedList, hm]
  · intro pol lookup it cands hl hall
    have hnil : cands.filter (Oscar.candOK pol) = [] := by
      refine List.filter_eq_nil_iff.mpr ?_
      intro c hc
      simp only [Oscar.candOK, Bool.and_eq_true, decide_eq_true_eq, not_and]
      intro habs
      exact absurd habs (not_le.mpr (hall c hc))
    simp [Oscar.rankedDecide, hl, Oscar.rankedList, hnil]
  · intro pol decideFn kind now s it h
    by_cases he : Oscar.eligible pol now it <;> simp [Oscar.processItem, he, h]

/-- C6 witness: the ranked-decide clauses applied at the concrete
two-candidate example of the spec. -/
theorem c6_ranked_filter_witness :
    (cand92 ∈ Oscar.rankedList tRankedPolicy [cand92, cand87] ∧
      tRankedPolicy.minScore ≤ cand92.score ∧
      cand92.createdAt < tRankedPolicy.timeLimit) ∧
    ((fun _ => Except.ok [cand92, cand87] :
        Oscar.Item → Except Oscar.DecideErr (List Oscar.Candidate)) tSkipItem =
      Except.ok [cand92, cand87] ∧
      ({ tRankedPolicy with maxResults := 0 } : Oscar.Policy).maxResults = 0 ∧
      Oscar.rankedDecide { tRankedPolicy with maxResults := 0 }
        (fun _ => Except.ok [cand92, cand87]) tSkipItem = Except.ok none) ∧
    ((∀ c ∈ [cand92, cand87], c.score < ({ tRankedPolicy with minScore := 2 } : Oscar.Policy).minScore) ∧
      Oscar.rankedDecide { tRankedPolicy with minScore := 2 }
        (fun _ => Except.ok [cand92, cand87]) tSkipItem = Except.ok none) := by
  have hmem : cand92 ∈ Oscar.rankedList tRankedPolicy [cand92, cand87] := by
    norm_num [Oscar.rankedList, Oscar.candOK, tRankedPolicy, tPolicy, cand92, cand87]
  have hlt : ∀ c ∈ [cand92, cand87],
      c.score < ({ tRankedPolicy with minScore := 2 } : Oscar.Policy).minScore := by
    norm_num [tRankedPolicy, tPolicy, cand92, cand87]
  refine ⟨⟨hmem, ?_⟩, ⟨rfl, rfl, ?_⟩, ⟨hlt, ?_⟩⟩
  · exact c6_ranked_filter.1 tRankedPolicy [cand92, cand87] cand92 hmem
  · exact c6_ranked_filter.2.2.2.1 { tRankedPolicy with maxResults := 0 }
      (fun _ => Except.ok [cand92, cand87]) tSkipItem [cand92, cand87] rfl rfl
  · exact c6_ranked_filter.2.2.2.2.1 { tRankedPolicy with minScore := 2 }
      (fun _ => Except.ok [cand92, cand87]) tSkipItem [cand92, cand87] rfl hlt

/-- C7: Post fails with NotFound when the named item is absent from the
source, reports the decide failure when the decide callback errs, and for a
ranked-candidate poster a missing embedding makes Post fail with the
vector-search decision failure; in every case the error is returned to the
caller and the state — log, cursor and effects — is left untouched, so no
side effect is performed. -/
theorem c7_post_errors :
    (∀ (pol : Oscar.Policy) (decideFn : Oscar.Item → Except Oscar.DecideErr (Option (List Char)))
        (kind : List Char) (handler : List Char → Except (List Char) (List Char))
        (source : List Oscar.Item) (project : List Char) (num : Nat) (s : Oscar.PState),
        Oscar.findItem source project num = none →
        Oscar.post pol decideFn kind handler source project num s =
          (Except.error Oscar.PostErr.notFound, s)) ∧
    (∀ (pol : Oscar.Policy) (decideFn : Oscar.Item → Except Oscar.DecideErr (Option (List Char)))
        (kind : List Char) (handler : List Char → Except (List Char) (List Char))
        (source : List Oscar.Item) (project : List Char) (num : Nat) (s : Oscar.PState)
        (it : Oscar.Item) (e : Oscar.DecideErr),
        Oscar.findItem source project num = some it →
        decideFn it = Except.error e →
        Oscar.post pol decideFn kind handler source project num s =
          (Except.error (Oscar.PostErr.decisionFailure e), s)) ∧
    (∀ (pol : Oscar.Policy) (kind : List Char)
        (handler : List Char → Except (List Char) (List Char))
        (source : List Oscar.Item) (project : List Char) (num : Nat) (s : Oscar.PState)
        (it : Oscar.Item) (embeddings : List (List Char × List Oscar.Candidate)),
        Oscar.findItem source project num = some it →
        embeddings.find? (fun p => p.1 == Oscar.itemKey it) = none →
        Oscar.post pol (Oscar.rankedDecide pol (Oscar.rankedLookup embeddings))
            kind handler source project num s =
          (Except.error (Oscar.PostErr.decisionFailure Oscar.DecideErr.vectorSearchFailed), s)) := by
  refine ⟨?_, ?_, ?_⟩
  · intro pol decideFn kind handler source project num s h
    simp [Oscar.post, h]
  · intro pol decideFn kind handler source project num s it e hfind hdec
    simp [Oscar.post, hfind, hdec]
  · intro pol kind handler source project num s it embeddings hfind hemb
    simp [Oscar.post, hfind, Oscar.rankedDecide, Oscar.rankedLookup, hemb]

/-- C7 witness: the error clauses applied at a concrete one-item source —
item 42 is absent, a failing decide callback is reported, and an empty
embedding store makes the ranked poster fail with the vector-search
failure. -/
theorem c7_post_errors_witness :
    (Oscar.findItem [tItemYear] tProject 42 = none ∧
      Oscar.post tPolicy (fun _ => Except.ok none) tKind tOkHandler
        [tItemYear] tProject 42 tState =
        (Except.error Oscar.PostErr.notFound, tState)) ∧
    (Oscar.findItem [tItemYear] tProject 1 = some tItemYear ∧
      (fun _ => Except.error Oscar.DecideErr.genFailed :
        Oscar.Item → Except Oscar.DecideErr (Option (List Char))) tItemYear =
        Except.error Oscar.DecideErr.genFailed ∧
      Oscar.post tPolicy (fun _ => Except.error Oscar.DecideErr.genFailed)
        tKind tOkHandler [tItemYear] tProject 1 tState =
        (Except.error (Oscar.PostErr.decisionFailure Oscar.DecideErr.genFailed), tState)) ∧
    (([] : List (List Char × List Oscar.Candidate)).find?
        (fun p => p.1 == Oscar.itemKey tItemYear) = none ∧
      Oscar.post tPolicy (Oscar.rankedDecide tPolicy (Oscar.rankedLookup []))
          tKind tOkHandler [tItemYear] tProject 1 tState =
        (Except.error (Oscar.PostErr.decisionFailure Oscar.DecideErr.vectorSearchFailed), tState)) := by
  refine ⟨⟨by decide, ?_⟩, ⟨by decide, rfl, ?_⟩, ⟨rfl, ?_⟩⟩
  · exact c7_post_errors.1 tPolicy (fun _ => Except.ok none) tKind tOkHandler
      [tItemYear] tProject 42 tState (by decide)
  · exact c7_post_errors.2.1 tPolicy (fun _ => Except.error Oscar.DecideErr.genFailed)
      tKind tOkHandler [tItemYear] tProject 1 tState tItemYear
      Oscar.DecideErr.genFailed (by decide) rfl
  · exact c7_post_errors.2.2 tPolicy tKind tOkHandler [tItemYear] tProject 1 tState
      tItemYear [] (by decide) rfl

/-- Helper: marking execution preserves which fingerprints occur in the
log. -/
theorem markExecuted_any_fp (log : List Oscar.Action) (fp : List Char) (ok : Bool)
    (g : List Char) :
    (Oscar.markExecuted log fp ok).any (fun b => b.fingerprint == g) =
      log.any (fun b => b.fingerprint == g) := by
  induction log with
  | nil => rfl
  | cons a rest ih =>
    have hhead : ∀ b : Oscar.Action,
        (if (b.fingerprint == fp && !b.executed) = true then
          ({ b with executed := true, failed := !ok } : Oscar.Action)
        else b).fingerprint = b.fingerprint := by
      intro b
      by_cases h : (b.fingerprint == fp && !b.executed) = true <;> simp [h]
    simp only [Oscar.markExecuted, List.map_cons, List.any_cons] at ih ⊢
    rw [hhead, ih]

/-- Helper: processing an item always sets the cursor to its sequence
number. -/
theorem processItem_cursor (pol : Oscar.Policy)
    (d : Oscar.Item → Except Oscar.DecideErr (Option (List Char)))
    (kind : List Char) (now : Int) (s : Oscar.PState) (it : Oscar.Item) :
    (Oscar.processItem pol d kind now s it).cursor = it.seq := rfl

/-- Helper: the cursor a scan ends on does not depend on the policy, the
decide callback, the kind, the instant, or anything in the state but the
initial cursor. -/
theorem runScan_cursor_congr (pol₁ pol₂ : Oscar.Policy)
    (d₁ d₂ : Oscar.Item → Except Oscar.DecideErr (Option (List Char)))
    (kind₁ kind₂ : List Char) (now₁ now₂ : Int) :
    ∀ (items : List Oscar.Item) (s₁ s₂ : Oscar.PState), s₁.cursor = s₂.cursor →
    (Oscar.runScan pol₁ d₁ kind₁ now₁ s₁ items).cursor =
      (Oscar.runScan pol₂ d₂ kind₂ now₂ s₂ items).cursor := by
  intro items
  induction items with
  | nil => intro s₁ s₂ h; exact h
  | cons a rest ih =>
    intro s₁ s₂ h
    exact ih (Oscar.processItem pol₁ d₁ kind₁ now₁ s₁ a)
      (Oscar.processItem pol₂ d₂ kind₂ now₂ s₂ a) (by rw [processItem_cursor, processItem_cursor])

/-- Helper: the cursor a scan ends on is the initial cursor or the sequence
number of one of the scanned items. -/
theorem runScan_cursor_mem (pol : Oscar.Policy)
    (d : Oscar.Item → Except Oscar.DecideErr (Option (List Char)))
    (kind : List Char) (now : Int) :
    ∀ (items : List Oscar.Item) (s : Oscar.PState),
    (Oscar.runScan pol d kind now s items).cursor = s.cursor ∨
      ∃ b ∈ items, (Oscar.runScan pol d kind now s items).cursor = b.seq := by
  intro items
  induction items with
  | nil => intro s; exact Or.inl rfl
  | cons a rest ih =>
    intro s
    have hstep : Oscar.runScan pol d kind now s (a :: rest) =
        Oscar.runScan pol d kind now (Oscar.processItem pol d kind now s a) rest := rfl
    rcases ih (Oscar.processItem pol d kind now s a) with h | ⟨b, hb, he⟩
    · right
      exact ⟨a, List.mem_cons_self a rest, by rw [hstep, h, processItem_cursor]⟩
    · right
      exact ⟨b, List.mem_cons_of_mem a hb, by rw [hstep]; exact he⟩

/-- Helper: with the stream sorted ascending by sequence number, the scan
cursor ends at or past every scanned item. -/
theorem runScan_cursor_ge (pol : Oscar.Policy)
    (d : Oscar.Item → Except Oscar.DecideErr (Option (List Char)))
    (kind : List Char) (now : Int) :
    ∀ (items : List Oscar.Item) (s : Oscar.PState),
    items.Pairwise (fun a b => a.seq ≤ b.seq) →
    ∀ it ∈ items, it.seq ≤ (Oscar.runScan pol d kind now s items).cursor := by
  intro items
  induction items with
  | nil => intro s _ it hit; cases hit
  | cons a rest ih =>
    intro s hsort it hit
    have hstep : Oscar.runScan pol d kind now s (a :: rest) =
        Oscar.runScan pol d kind now (Oscar.processItem pol d kind now s a) rest := rfl
    rcases List.mem_cons.mp hit with he | hr
    · subst he
      rw [hstep]
      rcases runScan_cursor_mem pol d kind now rest (Oscar.processItem pol d kind now s it) with
        h | ⟨b, hb, he2⟩
      · rw [h, processItem_cursor]
      · rw [he2]
        exact (List.pairwise_cons.mp hsort).1 b hb
    · rw [hstep]
      exact ih (Oscar.processItem pol d kind now s a) (List.pairwise_cons.mp hsort).2 it hr

/-- C2: the watcher cursor is monotone and owned by the scan path — Run
evaluates exactly the items with sequence numbers strictly past the
persisted cursor (never one at or below it), the cursor a Run ends on is
independent of the policy and decide callback (it advances whether or not an
Action was produced), with an ascending stream the final cursor is at or
past every evaluated item, each processed item sets the cursor to its own
sequence number, and Post never mutates the cursor. -/
theorem c2_cursor_monotone :
    (∀ (s : Oscar.PState) (source : List Oscar.Item) (it : Oscar.Item),
        it ∈ Oscar.runEvaluated s source → s.cursor < it.seq) ∧
    (∀ (s : Oscar.PState) (source : List Oscar.Item) (it : Oscar.Item),
        it.seq ≤ s.cursor → it ∉ Oscar.runEvaluated s source) ∧
    (∀ (pol₁ pol₂ : Oscar.Policy)
        (d₁ d₂ : Oscar.Item → Except Oscar.DecideErr (Option (List Char)))
        (kind₁ kind₂ : List Char)
        (handler₁ handler₂ : List Char → Except (List Char) (List Char))
        (now₁ now₂ : Int) (source : List Oscar.Item) (s : Oscar.PState),
        (Oscar.run pol₁ d₁ kind₁ handler₁ now₁ source s).1.cursor =
          (Oscar.run pol₂ d₂ kind₂ handler₂ now₂ source s).1.cursor) ∧
    (∀ (pol : Oscar.Policy) (d : Oscar.Item → Except Oscar.DecideErr (Option (List Char)))
        (kind : List Char) (handler : List Char → Except (List Char) (List Char))
        (now : Int) (source : List Oscar.Item) (s : Oscar.PState),
        (Oscar.runEvaluated s source).Pairwise (fun a b => a.seq ≤ b.seq) →
        ∀ it ∈ Oscar.runEvaluated s source,
          it.seq ≤ (Oscar.run pol d kind handler now source s).1.cursor) ∧
    (∀ (pol : Oscar.Policy) (d : Oscar.Item → Except Oscar.DecideErr (Option (List Char)))
        (kind : List Char) (now : Int) (s : Oscar.PState) (it : Oscar.Item),
        (Oscar.processItem pol d kind now s it).cursor = it.seq) ∧
    (∀ (pol : Oscar.Policy) (d : Oscar.Item → Except Oscar.DecideErr (Option (List Char)))
        (kind : List Char) (handler : List Char → Except (List Char) (List Char))
        (source : List Oscar.Item) (project : List Char) (num : Nat) (s : Oscar.PState),
        (Oscar.post pol d kind handler source project num s).2.cursor = s.cursor) := by
  refine ⟨?_, ?_, ?_, ?_, processItem_cursor, ?_⟩
  · intro s source it hit
    simpa using (List.of_mem_filter hit)
  · intro s source it hle hit
    have := List.of_mem_filter hit
    simp at this
    omega
  · intro pol₁ pol₂ d₁ d₂ kind₁ kind₂ handler₁ handler₂ now₁ now₂ source s
    show (Oscar.runScan pol₁ d₁ kind₁ now₁ s (Oscar.runEvaluated s source)).cursor =
      (Oscar.runScan pol₂ d₂ kind₂ now₂ s (Oscar.runEvaluated s source)).cursor
    exact runScan_cursor_congr pol₁ pol₂ d₁ d₂ kind₁ kind₂ now₁ now₂ _ s s rfl
  · intro pol d kind handler now source s hsort it hit
    show it.seq ≤ (Oscar.runScan pol d kind now s (Oscar.runEvaluated s source)).cursor
    exact runScan_cursor_ge pol d kind now _ s hsort it hit
  · intro pol d kind handler source project num s
    cases hfind : Oscar.findItem source project num with
    | none => simp [Oscar.post, hfind]
    | some it =>
      cases hdec : d it with
      | error e => simp [Oscar.post, hfind, hdec]
      | ok op =>
        cases op with
        | none => simp [Oscar.post, hfind, hdec]
        | some payload =>
          by_cases hs : (Oscar.submit s.log (Oscar.mkAction pol kind it payload)).2 = true
          · by_cases ha : pol.autoApprove = true
            · cases hh : handler payload <;> simp [Oscar.post, hfind, hdec, hs, ha, hh]
            · simp [Oscar.post, hfind, hdec, hs, ha]
          · simp [Oscar.post, hfind, hdec, hs]

/-- C2 witness: the cursor clauses applied at a concrete two-item stream and
a direct post. -/
theorem c2_cursor_monotone_witness :
    (tItemYear ∈ Oscar.runEvaluated tState [tItemYear, tItemOld] ∧
      tState.cursor < tItemYear.seq) ∧
    (tItemYear.seq ≤ ({ tState with cursor := 5 } : Oscar.PState).cursor ∧
      tItemYear ∉ Oscar.runEvaluated { tState with cursor := 5 } [tItemYear, tItemOld]) ∧
    ((Oscar.runEvaluated tState [tItemYear, tItemOld]).Pairwise
        (fun a b => a.seq ≤ b.seq) ∧
      ∀ it ∈ Oscar.runEvaluated tState [tItemYear, tItemOld],
        it.seq ≤ (Oscar.run tPolicy (fun _ => Except.ok none) tKind tOkHandler
          tNow [tItemYear, tItemOld] tState).1.cursor) ∧
    (Oscar.post tPolicy (fun _ => Except.ok (some (('x') :: []))) tKind tOkHandler
        [tItemYear] tProject 1 tState).2.cursor = tState.cursor := by
  refine ⟨⟨by decide, ?_⟩, ⟨by decide, ?_⟩, ⟨by decide, ?_⟩, ?_⟩
  · exact c2_cursor_monotone.1 tState [tItemYear, tItemOld] tItemYear (by decide)
  · exact c2_cursor_monotone.2.1 { tState with cursor := 5 } [tItemYear, tItemOld]
      tItemYear (by decide)
  · exact c2_cursor_monotone.2.2.2.1 tPolicy (fun _ => Except.ok none) tKind
      tOkHandler tNow [tItemYear, tItemOld] tState (by decide)
  · exact c2_cursor_monotone.2.2.2.2.2 tPolicy (fun _ => Except.ok (some (('x') :: [])))
      tKind tOkHandler [tItemYear] tProject 1 tState

/-- C1: Post is idempotent — Submit with an already-present fingerprint
returns the log untouched with inserted false, and for an item whose decide
output is unchanged a first successful Post performs exactly one side effect
while the second Post reports already-posted and leaves the state — log,
cursor and effects — exactly as the first left it. -/
theorem c1_post_idempotent :
    (∀ (log : List Oscar.Action) (a : Oscar.Action),
        log.any (fun b => b.fingerprint == a.fingerprint) = true →
        Oscar.submit log a = (log, false)) ∧
    (∀ (pol : Oscar.Policy) (d : Oscar.Item → Except Oscar.DecideErr (Option (List Char)))
        (kind : List Char) (handler : List Char → Except (List Char) (List Char))
        (source : List Oscar.Item) (project : List Char) (num : Nat) (s : Oscar.PState)
        (it : Oscar.Item) (payload r : List Char),
        Oscar.findItem source project num = some it →
        d it = Except.ok (some payload) →
        handler payload = Except.ok r →
        pol.autoApprove = true →
        s.log.any (fun b =>
          b.fingerprint == Oscar.fingerprintOf kind it.project it.seq payload) = false →
        (Oscar.post pol d kind handler source project num s).1 =
          Except.ok Oscar.PostResult.posted ∧
        (Oscar.post pol d kind handler source project num s).2.effects =
          s.effects ++ [Oscar.fingerprintOf kind it.project it.seq payload] ∧
        Oscar.post pol d kind handler source project num
            (Oscar.post pol d kind handler source project num s).2 =
          (Except.ok Oscar.PostResult.alreadyPosted,
            (Oscar.post pol d kind handler source project num s).2)) := by
  refine ⟨?_, ?_⟩
  · intro log a h
    simp [Oscar.submit, h]
  · intro pol d kind handler source project num s it payload r hfind hdec hh hauto hfresh
    have hfresh2 : s.log.any (fun b =>
        b.fingerprint == (Oscar.mkAction pol kind it payload).fingerprint) = false := hfresh
    have hpost1 : Oscar.post pol d kind handler source project num s =
        (Except.ok Oscar.PostResult.posted,
          { log := Oscar.markExecuted
              (s.log ++ [Oscar.mkAction pol kind it payload])
              (Oscar.mkAction pol kind it payload).fingerprint true
            cursor := s.cursor
            effects := s.effects ++ [(Oscar.mkAction pol kind it payload).fingerprint] }) := by
      simp [Oscar.post, hfind, hdec, hauto, hh, Oscar.submit, hfresh2]
    have hany2 : (Oscar.markExecuted (s.log ++ [Oscar.mkAction pol kind it payload])
        (Oscar.mkAction pol kind it payload).fingerprint true).any
        (fun b => b.fingerprint == (Oscar.mkAction pol kind it payload).fingerprint) = true := by
      rw [markExecuted_any_fp]
      simp
    refine ⟨by rw [hpost1], by rw [hpost1]; rfl, ?_⟩
    rw [hpost1]
    simp only [Oscar.post, hfind, hdec, Oscar.submit, hany2]
    simp [hany2]

/-- C1 witness: the idempotence clause applied at a concrete one-item source
starting from the empty state — the first Post posts, the second reports
already posted and changes nothing. -/
theorem c1_post_idempotent_witness :
    (Oscar.findItem [tItemYear] tProject 1 = some tItemYear ∧
      tPolicy.autoApprove = true ∧
      tState.log.any (fun b => b.fingerprint ==
        Oscar.fingerprintOf tKind tItemYear.project tItemYear.seq (('x') :: [])) = false) ∧
    (Oscar.post tPolicy (fun _ => Except.ok (some (('x') :: []))) tKind tOkHandler
      [tItemYear] tProject 1 tState).1 = Except.ok Oscar.PostResult.posted ∧
    Oscar.post tPolicy (fun _ => Except.ok (some (('x') :: []))) tKind tOkHandler
        [tItemYear] tProject 1
        (Oscar.post tPolicy (fun _ => Except.ok (some (('x') :: []))) tKind tOkHandler
          [tItemYear] tProject 1 tState).2 =
      (Except.ok Oscar.PostResult.alreadyPosted,
        (Oscar.post tPolicy (fun _ => Except.ok (some (('x') :: []))) tKind tOkHandler
          [tItemYear] tProject 1 tState).2) := by
  have h := c1_post_idempotent.2 tPolicy (fun _ => Except.ok (some (('x') :: [])))
    tKind tOkHandler [tItemYear] tProject 1 tState tItemYear (('x') :: []) []
    (by decide) rfl rfl rfl rfl
  exact ⟨⟨by decide, rfl, rfl⟩, h.1, h.2.2⟩

/-- Helper: an atomic event whose fingerprint is not yet in the log inserts
it, performs the effect and is counted by its origin. -/
theorem cstep_fresh (pol : Oscar.Policy) (kind : List Char)
    (handler : List Char → Except (List Char) (List Char))
    (s : Oscar.CState) (e : Oscar.CEvent)
    (hf : s.ps.log.any (fun b =>
      b.fingerprint == (Oscar.mkAction pol kind e.item e.payload).fingerprint) = false)
    (hok : (handler e.payload).isOk = true) :
    Oscar.cstep pol kind handler s e =
      { ps := { log := (Oscar.markExecuted
                    (s.ps.log ++ [Oscar.mkAction pol kind e.item e.payload])
                    (Oscar.mkAction pol kind e.item e.payload).fingerprint true)
                cursor := s.ps.cursor
                effects := s.ps.effects ++
                    [(Oscar.mkAction pol kind e.item e.payload).fingerprint] }
        runExecuted := if e.fromRun then s.runExecuted + 1 else s.runExecuted
        postExecuted := if e.fromRun then s.postExecuted else s.postExecuted + 1 } := by
  cases hh : handler e.payload with
  | ok v => simp [Oscar.cstep, Oscar.submit, hf, hh]
  | error err =>
    rw [hh] at hok
    simp [Except.isOk, Except.toBool] at hok

/-- Helper: executing a history of events with pairwise-distinct fingerprints,
all fresh for the starting log and all with succeeding handlers, appends
exactly one effect per event in history order and counts each event for the
side that submitted it. -/
theorem cexec_fresh (pol : Oscar.Policy) (kind : List Char)
    (handler : List Char → Except (List Char) (List Char)) :
    ∀ (evs : List Oscar.CEvent) (s : Oscar.CState),
    (evs.map (Oscar.fpOfEvent kind)).Nodup →
    (∀ e ∈ evs, s.ps.log.any (fun b =>
      b.fingerprint == Oscar.fpOfEvent kind e) = false) →
    (∀ e ∈ evs, (handler e.payload).isOk = true) →
    (Oscar.cexec pol kind handler s evs).ps.effects =
        s.ps.effects ++ evs.map (Oscar.fpOfEvent kind) ∧
    (Oscar.cexec pol kind handler s evs).runExecuted =
        s.runExecuted + evs.countP (fun e => e.fromRun) ∧
    (Oscar.cexec pol kind handler s evs).postExecuted =
        s.postExecuted + evs.countP (fun e => !e.fromRun) := by
  intro evs
  induction evs with
  | nil => intro s _ _ _; exact ⟨by simp [Oscar.cexec], by simp [Oscar.cexec], by simp [Oscar.cexec]⟩
  | cons e rest ih =>
    intro s hnodup hfresh hok
    have hf : s.ps.log.any (fun b =>
        b.fingerprint == (Oscar.mkAction pol kind e.item e.payload).fingerprint) = false :=
      hfresh e (List.mem_cons_self e rest)
    have hstep : Oscar.cexec pol kind handler s (e :: rest) =
        Oscar.cexec pol kind handler (Oscar.cstep pol kind handler s e) rest := rfl
    rw [hstep, cstep_fresh pol kind handler s e hf (hok e (List.mem_cons_self e rest))]
    have hnd := List.nodup_cons.mp hnodup
    have hfresh2 : ∀ e2 ∈ rest,
        (Oscar.markExecuted (s.ps.log ++ [Oscar.mkAction pol kind e.item e.payload])
          (Oscar.mkAction pol kind e.item e.payload).fingerprint true).any
          (fun b => b.fingerprint == Oscar.fpOfEvent kind e2) = false := by
      intro e2 he2
      rw [markExecuted_any_fp]
      have h1 : s.ps.log.any (fun b => b.fingerprint == Oscar.fpOfEvent kind e2) = false :=
        hfresh e2 (List.mem_cons_of_mem e he2)
      have hne : Oscar.fpOfEvent kind e ≠ Oscar.fpOfEvent kind e2 := by
        intro hcontra
        exact hnd.1 (hcontra ▸ List.mem_map_of_mem (Oscar.fpOfEvent kind) he2)
      simp [List.any_append, h1]
      simpa using hne
    obtain ⟨ihe, ihr, ihp⟩ := ih
      { ps := { log := (Oscar.markExecuted
                    (s.ps.log ++ [Oscar.mkAction pol kind e.item e.payload])
                    (Oscar.mkAction pol kind e.item e.payload).fingerprint true)
                cursor := s.ps.cursor
                effects := s.ps.effects ++
                    [(Oscar.mkAction pol kind e.item e.payload).fingerprint] }
        runExecuted := if e.fromRun then s.runExecuted + 1 else s.runExecuted
        postExecuted := if e.fromRun then s.postExecuted else s.postExecuted + 1 }
      hnd.2 hfresh2 (fun e2 he2 => hok e2 (List.mem_cons_of_mem e he2))
    refine ⟨?_, ?_, ?_⟩
    · rw [ihe]; simp [Oscar.mkAction, Oscar.fpOfEvent]
    · rw [ihr]
      cases hr : e.fromRun <;> simp [List.countP_cons, hr] <;> omega
    · rw [ihp]
      cases hr : e.fromRun <;> simp [List.countP_cons, hr] <;> omega

/-- Helper: in a duplicate-free list every member occurs exactly once. -/
theorem count_eq_one_of_nodup_mem (l : List (List Char)) (a : List Char)
    (hn : l.Nodup) (hm : a ∈ l) : l.count a = 1 := by
  induction l with
  | nil => cases hm
  | cons b rest ih =>
    rw [List.count_cons]
    rcases List.mem_cons.mp hm with he | hr
    · subst he
      have hna : a ∉ rest := (List.nodup_cons.mp hn).1
      have hz : rest.count a = 0 := List.count_eq_zero.mpr hna
      simp [hz]
    · have hbne : (b == a) = false := by
        have hne2 : b ≠ a := fun hcontra => (List.nodup_cons.mp hn).1 (hcontra ▸ hr)
        simpa using hne2
      have ih2 := ih (List.nodup_cons.mp hn).2 hr
      simp [ih2, hbne]

/-- C8: interleaving one Run and one Post on disjoint items — for every point
k at which the single Post event can land inside the Run events, the
resulting effects are the union of both sides, in schedule order and as a
permutation of all fingerprints; every item's side effect happens exactly
once regardless of the interleaving; and the Run count reflects exactly the
items the Run itself executed while the Post counts its one item. -/
theorem c8_concurrent_run_post :
    ∀ (pol : Oscar.Policy) (kind : List Char)
      (handler : List Char → Except (List Char) (List Char))
      (runEvs : List Oscar.CEvent) (p : Oscar.CEvent) (k : Nat) (s : Oscar.CState),
    ((p :: runEvs).map (Oscar.fpOfEvent kind)).Nodup →
    (∀ e ∈ p :: runEvs, s.ps.log.any (fun b =>
      b.fingerprint == Oscar.fpOfEvent kind e) = false) →
    (∀ e ∈ p :: runEvs, (handler e.payload).isOk = true) →
    (∀ e ∈ runEvs, e.fromRun = true) → p.fromRun = false →
    (Oscar.cexec pol kind handler s (Oscar.schedule runEvs p k)).ps.effects =
        s.ps.effects ++ (Oscar.schedule runEvs p k).map (Oscar.fpOfEvent kind) ∧
    ((Oscar.cexec pol kind handler s (Oscar.schedule runEvs p k)).ps.effects).Perm
        (s.ps.effects ++ Oscar.fpOfEvent kind p :: runEvs.map (Oscar.fpOfEvent kind)) ∧
    (∀ e ∈ p :: runEvs,
        ((Oscar.cexec pol kind handler s (Oscar.schedule runEvs p k)).ps.effects).count
            (Oscar.fpOfEvent kind e) =
          s.ps.effects.count (Oscar.fpOfEvent kind e) + 1) ∧
    (Oscar.cexec pol kind handler s (Oscar.schedule runEvs p k)).runExecuted =
        s.runExecuted + runEvs.length ∧
    (Oscar.cexec pol kind handler s (Oscar.schedule runEvs p k)).postExecuted =
        s.postExecuted + 1 := by
  intro pol kind handler runEvs p k s hnodup hfresh hok hrun hpost
  have hperm : (Oscar.schedule runEvs p k).Perm (p :: runEvs) := by
    have h1 : Oscar.schedule runEvs p k = runEvs.take k ++ p :: runEvs.drop k := rfl
    rw [h1]
    have h2 := @List.perm_middle _ p (runEvs.take k) (runEvs.drop k)
    simpa [List.take_append_drop] using h2
  have hpermmap : ((Oscar.schedule runEvs p k).map (Oscar.fpOfEvent kind)).Perm
      ((p :: runEvs).map (Oscar.fpOfEvent kind)) := hperm.map _
  have hnodup2 : ((Oscar.schedule runEvs p k).map (Oscar.fpOfEvent kind)).Nodup :=
    hpermmap.symm.nodup hnodup
  obtain ⟨he, hr, hpn⟩ := cexec_fresh pol kind handler (Oscar.schedule runEvs p k) s
    hnodup2 (fun e hme => hfresh e (hperm.mem_iff.mp hme))
    (fun e hme => hok e (hperm.mem_iff.mp hme))
  refine ⟨he, ?_, ?_, ?_, ?_⟩
  · rw [he]
    simpa using List.Perm.append_left s.ps.effects hpermmap
  · intro e he2
    rw [he, List.count_append]
    have hcnt : ((Oscar.schedule runEvs p k).map (Oscar.fpOfEvent kind)).count
        (Oscar.fpOfEvent kind e) = 1 :=
      count_eq_one_of_nodup_mem _ _ hnodup2
        (List.mem_map_of_mem _ (hperm.mem_iff.mpr he2))
    rw [hcnt]
  · rw [hr]
    have hc : (Oscar.schedule runEvs p k).countP (fun e => e.fromRun) = runEvs.length := by
      rw [hperm.countP_eq]
      simp only [List.countP_cons, hpost]
      rw [List.countP_eq_length.mpr hrun]
      simp
    rw [hc]
  · rw [hpn]
    have hc : (Oscar.schedule runEvs p k).countP (fun e => !e.fromRun) = 1 := by
      rw [hperm.countP_eq]
      simp only [List.countP_cons, hpost]
      rw [List.countP_eq_zero.mpr]
      · simp
      · intro e hme
        simp [hrun e hme]
    rw [hc]

/-- C8 witness: the interleaving clause applied at two Run events and one
Post event on disjoint items, with the Post landing after the first Run
event, starting from the empty state. -/
theorem c8_concurrent_run_post_witness :
    (((evPost :: [ev1, ev2]).map (Oscar.fpOfEvent tKind)).Nodup ∧
      (∀ e ∈ evPost :: [ev1, ev2],
        (({ ps := tState, runExecuted := 0, postExecuted := 0 } : Oscar.CState)).ps.log.any
          (fun b => b.fingerprint == Oscar.fpOfEvent tKind e) = false) ∧
      (∀ e ∈ evPost :: [ev1, ev2], (tOkHandler e.payload).isOk = true) ∧
      (∀ e ∈ [ev1, ev2], e.fromRun = true) ∧ evPost.fromRun = false) ∧
    (Oscar.cexec tPolicy tKind tOkHandler
        { ps := tState, runExecuted := 0, postExecuted := 0 }
        (Oscar.schedule [ev1, ev2] evPost 1)).runExecuted = 0 + 2 ∧
    (Oscar.cexec tPolicy tKind tOkHandler
        { ps := tState, runExecuted := 0, postExecuted := 0 }
        (Oscar.schedule [ev1, ev2] evPost 1)).postExecuted = 0 + 1 ∧
    (∀ e ∈ evPost :: [ev1, ev2],
        ((Oscar.cexec tPolicy tKind tOkHandler
          { ps := tState, runExecuted := 0, postExecuted := 0 }
          (Oscar.schedule [ev1, ev2] evPost 1)).ps.effects).count
            (Oscar.fpOfEvent tKind e) =
          tState.effects.count (Oscar.fpOfEvent tKind e) + 1) := by
  have h := c8_concurrent_run_post tPolicy tKind tOkHandler [ev1, ev2] evPost 1
    { ps := tState, runExecuted := 0, postExecuted := 0 }
    (by decide) (by decide) (by decide) (by decide) (by decide)
  exact ⟨⟨by decide, by decide, by decide, by decide, by decide⟩, h.2.2.2.1, h.2.2.2.2, h.2.2.1⟩

/-- Helper: the largest element of a list of naturals is its max?. -/
theorem max?_mem_le (l : List Nat) (a : Nat) (h1 : a ∈ l) (h2 : ∀ b ∈ l, b ≤ a) :
    l.max? = some a := by
  rw [List.max?_eq_some_iff]
  · exact ⟨h1, h2⟩
  · exact fun x => Nat.le_refl x
  · exact fun x y => max_choice x y
  · exact fun x y z => Nat.max_le

/-- Helper: a decimal digit is not whitespace. -/
theorem goIsSpace_of_digit (c : Char) (h : c.isDigit = true) : goIsSpace c = false := by
  have hb : 48 ≤ c.toNat ∧ c.toNat ≤ 57 := by
    simp [Char.isDigit, Char.toNat] at h ⊢
    exact ⟨h.1, h.2⟩
  simp only [goIsSpace, Bool.or_eq_false_iff, decide_eq_false_iff_not,
    Bool.and_eq_false_iff, not_le]
  omega

/-- Helper: dropWhile is the identity when the head fails the predicate. -/
theorem dropWhile_eq_self_of_head (p : Char → Bool) :
    ∀ (s : List Char), (∀ c, s.head? = some c → p c = false) →
    List.dropWhile p s = s
  | [], _ => rfl
  | a :: l, h => by simp [List.dropWhile_cons, h a rfl]

/-- Helper: trimming whitespace is the identity when neither end is
whitespace. -/
theorem trimSpace_eq_self (s : List Char)
    (hh : ∀ c, s.head? = some c → goIsSpace c = false)
    (hl : ∀ c, s.getLast? = some c → goIsSpace c = false) : trimSpace s = s := by
  unfold trimSpace
  rw [dropWhile_eq_self_of_head _ s hh]
  rw [dropWhile_eq_self_of_head _ s.reverse
    (fun c hc => hl c (by rwa [List.head?_reverse] at hc))]
  exact List.reverse_reverse s

/-- Helper: trimming an all-whitespace string leaves nothing. -/
theorem trimSpace_eq_nil (s : List Char) (h : ∀ c ∈ s, goIsSpace c = true) :
    trimSpace s = [] := by
  unfold trimSpace
  rw [List.dropWhile_eq_nil_iff.mpr h]
  rfl

/-- Helper: the separator cannot occur past its own position when followed
only by digits. -/
theorem matchesAt_sep_gt_false (proj num : List Char)
    (hdig : ∀ c ∈ num, c.isDigit = true) (j : Nat)
    (hj : proj.length < j) :
    matchesAt (("/issues/").data) (proj ++ ("/issues/").data ++ num) j = false := by
  by_contra hcon
  rw [Bool.not_eq_false, matchesAt] at hcon
  have hpre : (("/issues/").data) <+:
      ((proj ++ ("/issues/").data ++ num).drop j) := by
    rw [← List.isPrefixOf_iff_prefix]
    exact hcon
  have hlen := hpre.length_le
  have hlen2 : (("/issues/").data).length = 8 := rfl
  have hslen : (proj ++ ("/issues/").data ++ num).length =
      proj.length + 8 + num.length := by
    simp [List.length_append]
    omega
  rw [List.length_drop, hlen2, hslen] at hlen
  obtain ⟨t, ht⟩ := hpre
  have h7 : ((proj ++ ("/issues/").data ++ num).drop j).drop 7 = ('/') :: t := by
    rw [← ht]
    rfl
  rw [List.drop_drop] at h7
  have h9 : (proj ++ ("/issues/").data ++ num).drop (j + 7) =
      num.drop (j + 7 - (proj ++ ("/issues/").data).length) := by
    rw [List.drop_append_eq_append_drop,
      List.drop_eq_nil_of_le (by simp [List.length_append]; omega)]
    rfl
  rw [h9] at h7
  have hmem : ('/') ∈ num := by
    refine List.drop_subset (j + 7 - (proj ++ ("/issues/").data).length) num ?_
    rw [h7]
    exact List.mem_cons_self _ _
  have hd := hdig _ hmem
  exact absurd hd (by decide)

/-- Helper: the last occurrence of the issues separator before a digit tail
is exactly the separator position. -/
theorem lastIndex_sep (proj num : List Char)
    (hdig : ∀ c ∈ num, c.isDigit = true) :
    lastIndex (("/issues/").data) (proj ++ ("/issues/").data ++ num) =
      some proj.length := by
  unfold lastIndex
  apply max?_mem_le
  · rw [List.mem_filter]
    refine ⟨?_, ?_⟩
    · rw [List.mem_range]
      have : (proj ++ ("/issues/").data ++ num).length =
          proj.length + 8 + num.length := by
        simp [List.length_append]
        omega
      omega
    · show matchesAt (("/issues/").data) (proj ++ ("/issues/").data ++ num)
        proj.length = true
      rw [matchesAt, List.append_assoc, List.drop_left]
      rw [List.isPrefixOf_iff_prefix]
      exact List.prefix_append _ _
  · intro b hb
    rw [List.mem_filter] at hb
    by_contra hgt
    push_neg at hgt
    have hfalse := matchesAt_sep_gt_false proj num hdig b hgt
    have htrue : matchesAt (("/issues/").data)
        (proj ++ ("/issues/").data ++ num) b = true := hb.2
    rw [htrue] at hfalse
    cases hfalse

/-- Helper: parsing a plain digit string in 64-bit range succeeds with its
value. -/
theorem goParseInt64_digits (num : List Char) (v : Nat) (hne : num ≠ [])
    (hdig : ∀ c ∈ num, c.isDigit = true) (hval : digitsVal num = some v)
    (hbound : (v : Int) ≤ 2 ^ 63 - 1) : goParseInt64 num = some v := by
  cases num with
  | nil => exact absurd rfl hne
  | cons c rest =>
    have hc : c.isDigit = true := hdig c (List.mem_cons_self c rest)
    have hc1 : ¬(c = '-') := by
      intro h
      rw [h] at hc
      exact absurd hc (by decide)
    have hc2 : ¬(c = '+') := by
      intro h
      rw [h] at hc
      exact absurd hc (by decide)
    show (if c = '-' then
        match digitsVal rest with
        | some v => if (v : Int) ≤ 2 ^ 63 then some (-(v : Int)) else none
        | none => none
      else if c = '+' then
        match digitsVal rest with
        | some v => if (v : Int) ≤ 2 ^ 63 - 1 then some (v : Int) else none
        | none => none
      else
        match digitsVal (c :: rest) with
        | some v => if (v : Int) ≤ 2 ^ 63 - 1 then some (v : Int) else none
        | none => none) = some (v : Int)
    rw [if_neg hc1, if_neg hc2, hval]
    simp
    omega

/-- Helper: cutting on the hash character splits at the marker when the
project part contains none. -/
theorem cutChar_hash (num : List Char) :
    ∀ (proj : List Char), ('#') ∉ proj →
    cutChar ('#') (proj ++ ('#') :: num) = some (proj, num)
  | [], _ => by simp [cutChar]
  | a :: rest, h => by
    have ha : ¬(a = '#') := fun hcontra => h (hcontra ▸ List.mem_cons_self a rest)
    have ih := cutChar_hash num rest (fun hm => h (List.mem_cons_of_mem a hm))
    simp [cutChar, ha, ih]

/-- Helper: appending a non-empty tail keeps its last element. -/
theorem getLast?_append_right (l1 l2 : List Char) (h : l2 ≠ []) :
    (l1 ++ l2).getLast? = l2.getLast? := by
  rw [List.getLast?_append]
  cases hl : l2.getLast? with
  | none => exact absurd (List.getLast?_eq_none_iff.mp hl) h
  | some c => rfl

/-- Helper: the last element of a list is a member. -/
theorem mem_of_getLast?_eq (l : List Char) (c : Char) (h : l.getLast? = some c) :
    c ∈ l := by
  obtain ⟨ys, hys⟩ := List.getLast?_eq_some_iff.mp h
  rw [hys]
  exact List.mem_append.mpr (Or.inr (List.mem_singleton_self c))

/-- Helper: a string whose head is not whitespace and whose tail part is all
digits trims to itself. -/
theorem trimSpace_head_digits (s num : List Char) (hnum : num ≠ [])
    (hdig : ∀ c ∈ num, c.isDigit = true)
    (hh : ∀ c, s.head? = some c → goIsSpace c = false)
    (htail : s.getLast? = num.getLast?) :
    trimSpace s = s := by
  refine trimSpace_eq_self s hh ?_
  intro c hc
  rw [htail] at hc
  exact goIsSpace_of_digit c (hdig c (mem_of_getLast?_eq num c hc))

/-- Helper: splitIssueID on the github.com form yields the project and the
numeric part. -/
theorem splitIssueID_github (proj num : List Char)
    (hdig : ∀ c ∈ num, c.isDigit = true) :
    splitIssueID (("github.com/").data ++ proj ++ ("/issues/").data ++ num) =
      (proj, num) := by
  have hassoc : ("github.com/").data ++ proj ++ ("/issues/").data ++ num =
      ("github.com/").data ++ (proj ++ (("/issues/").data ++ num)) := by
    simp [List.append_assoc]
  rw [hassoc]
  have h1 : dropPre (("https://").data)
      (("github.com/").data ++ (proj ++ (("/issues/").data ++ num))) =
      ("github.com/").data ++ (proj ++ (("/issues/").data ++ num)) := by
    simp [dropPre, List.isPrefixOf_cons₂]
  have h2 : cutPre (("github.com/").data)
      (("github.com/").data ++ (proj ++ (("/issues/").data ++ num))) =
      some (proj ++ (("/issues/").data ++ num)) := by
    simp [cutPre, List.isPrefixOf_cons₂]
  simp only [splitIssueID, h1, h2]
  rw [show proj ++ (("/issues/").data ++ num) =
    proj ++ ("/issues/").data ++ num from (List.append_assoc _ _ _).symm]
  rw [lastIndex_sep proj num hdig]
  have ht : (proj ++ ("/issues/").data ++ num).take proj.length = proj := by
    rw [List.append_assoc]
    exact List.take_left proj _
  have hd2 : (proj ++ ("/issues/").data ++ num).drop
      (proj.length + ("/issues/").length) = num := by
    rw [show proj.length + ("/issues/").length =
      (proj ++ ("/issues/").data).length by simp [List.length_append]; rfl]
    exact List.drop_left _ _
  simp only [ht, hd2]

/-- Helper: an https scheme is stripped before the split when the rest is not
itself https-prefixed. -/
theorem splitIssueID_strip_https (X : List Char)
    (hx : (("https://").data).isPrefixOf X = false) :
    splitIssueID (("https://").data ++ X) = splitIssueID X := by
  have h1 : dropPre (("https://").data) (("https://").data ++ X) = X := by
    simp [dropPre, List.isPrefixOf_cons₂]
  have h2 : dropPre (("https://").data) X = X := by
    simp [dropPre, hx]
  simp only [splitIssueID, h1, h2]

/-- Helper: splitIssueID on the go.dev form yields golang/go and the numeric
part. -/
theorem splitIssueID_godev (num : List Char) :
    splitIssueID (("go.dev/issues/").data ++ num) = ((("golang/go").data), num) := by
  have h1 : dropPre (("https://").data) (("go.dev/issues/").data ++ num) =
      ("go.dev/issues/").data ++ num := by
    simp [dropPre, List.isPrefixOf_cons₂]
  have h2 : cutPre (("github.com/").data) (("go.dev/issues/").data ++ num) = none := by
    simp [cutPre, List.isPrefixOf_cons₂]
  have h3 : cutPre (("go.dev/issues/").data) (("go.dev/issues/").data ++ num) =
      some num := by
    simp [cutPre, List.isPrefixOf_cons₂]
  simp only [splitIssueID, h1, h2, h3]

/-- Helper: splitIssueID on the hash form cuts at the marker. -/
theorem splitIssueID_hash (proj num : List Char)
    (h7 : (("https://").data).isPrefixOf (proj ++ ('#') :: num) = false)
    (hgh : (("github.com/").data).isPrefixOf (proj ++ ('#') :: num) = false)
    (hgo : (("go.dev/issues/").data).isPrefixOf (proj ++ ('#') :: num) = false)
    (hhash : ('#') ∉ proj) :
    splitIssueID (proj ++ ('#') :: num) = (proj, num) := by
  have h1 : dropPre (("https://").data) (proj ++ ('#') :: num) =
      proj ++ ('#') :: num := by
    simp [dropPre, h7]
  have h2 : cutPre (("github.com/").data) (proj ++ ('#') :: num) = none := by
    simp [cutPre, hgh]
  have h3 : cutPre (("go.dev/issues/").data) (proj ++ ('#') :: num) = none := by
    simp [cutPre, hgo]
  simp only [splitIssueID, h1, h2, h3, cutChar_hash num proj hhash]

/-- Helper: the common successful tail of parseIssueNumber once the trimmed
input splits into a project and an in-range positive digit string. -/
theorem parseIssueNumber_of_split (s proj num : List Char) (v : Nat)
    (hne : num ≠ []) (hdig : ∀ c ∈ num, c.isDigit = true)
    (hval : digitsVal num = some v) (hbound : (v : Int) ≤ 2 ^ 63 - 1)
    (hpos : 0 < v) (hsne : s ≠ []) (htrim : trimSpace s = s)
    (hsplit : splitIssueID s = (proj, num)) :
    parseIssueNumber s = some (proj, (v : Int)) := by
  simp only [parseIssueNumber, htrim, if_neg hsne, hsplit]
  rw [goParseInt64_digits num v hne hdig hval hbound]
  have hp : (0 : Int) < v := by exact_mod_cast hpos
  simp [hp]

/-- C9: parseIssueNumber is total and rejects exactly the malformed inputs —
a whitespace-only input returns an empty project, issue 0 and no error; any
other input errs exactly when the extracted numeric part does not parse as a
positive 64-bit decimal integer; and the recognized github.com, go.dev and
project-hash forms, each with or without the https scheme where applicable,
return the corresponding project and issue number. -/
theorem c9_parse_issue_number :
    (∀ s : List Char, (∀ c ∈ s, goIsSpace c = true) →
        parseIssueNumber s = some ([], 0)) ∧
    (∀ s : List Char, trimSpace s ≠ [] →
        (parseIssueNumber s = none ↔
          ∀ n : Int, goParseInt64 ((splitIssueID (trimSpace s)).2) = some n → n ≤ 0)) ∧
    (∀ (proj num : List Char) (v : Nat),
        num ≠ [] → (∀ c ∈ num, c.isDigit = true) → digitsVal num = some v →
        (v : Int) ≤ 2 ^ 63 - 1 → 0 < v →
        parseIssueNumber
            (("github.com/").data ++ proj ++ ("/issues/").data ++ num) =
          some (proj, (v : Int)) ∧
        parseIssueNumber (("https://").data ++
            (("github.com/").data ++ proj ++ ("/issues/").data ++ num)) =
          some (proj, (v : Int))) ∧
    (∀ (num : List Char) (v : Nat),
        num ≠ [] → (∀ c ∈ num, c.isDigit = true) → digitsVal num = some v →
        (v : Int) ≤ 2 ^ 63 - 1 → 0 < v →
        parseIssueNumber (("go.dev/issues/").data ++ num) =
          some ((("golang/go").data), (v : Int)) ∧
        parseIssueNumber (("https://").data ++ (("go.dev/issues/").data ++ num)) =
          some ((("golang/go").data), (v : Int))) ∧
    (∀ (proj num : List Char) (v : Nat),
        num ≠ [] → (∀ c ∈ num, c.isDigit = true) → digitsVal num = some v →
        (v : Int) ≤ 2 ^ 63 - 1 → 0 < v →
        (("https://").data).isPrefixOf (proj ++ ('#') :: num) = false →
        (("github.com/").data).isPrefixOf (proj ++ ('#') :: num) = false →
        (("go.dev/issues/").data).isPrefixOf (proj ++ ('#') :: num) = false →
        ('#') ∉ proj →
        (∀ c, (proj ++ ('#') :: num).head? = some c → goIsSpace c = false) →
        parseIssueNumber (proj ++ ('#') :: num) = some (proj, (v : Int))) := by
  refine ⟨?_, ?_, ?_, ?_, ?_⟩
  · intro s h
    simp [parseIssueNumber, trimSpace_eq_nil s h]
  · intro s h
    simp only [parseIssueNumber, if_neg h]
    cases hg : goParseInt64 ((splitIssueID (trimSpace s)).2) with
    | none => simp
    | some n =>
      by_cases hp : 0 < n
      · simp [hp]
      · simp [hp]
        omega
  · intro proj num v hne hdig hval hbound hpos
    have hh : ∀ c,
        ((("github.com/").data ++ proj ++ ("/issues/").data ++ num)).head? =
          some c → goIsSpace c = false := by
      intro c hc
      rw [show ((("github.com/").data ++ proj ++ ("/issues/").data ++
        num)).head? = some ('g') from rfl] at hc
      injection hc with h2
      rw [← h2]
      decide
    have hlast : ((("github.com/").data ++ proj ++ ("/issues/").data ++
        num)).getLast? = num.getLast? := getLast?_append_right _ num hne
    have htrim := trimSpace_head_digits _ num hne hdig hh hlast
    have hsne : ("github.com/").data ++ proj ++ ("/issues/").data ++ num ≠ [] := by
      simp
    refine ⟨parseIssueNumber_of_split _ proj num v hne hdig hval hbound hpos
      hsne htrim (splitIssueID_github proj num hdig), ?_⟩
    have hh2 : ∀ c,
        ((("https://").data ++ (("github.com/").data ++ proj ++
          ("/issues/").data ++ num))).head? = some c → goIsSpace c = false := by
      intro c hc
      rw [show ((("https://").data ++ (("github.com/").data ++ proj ++
        ("/issues/").data ++ num))).head? = some ('h') from rfl] at hc
      injection hc with h2
      rw [← h2]
      decide
    have hlast2 : ((("https://").data ++ (("github.com/").data ++ proj ++
        ("/issues/").data ++ num))).getLast? = num.getLast? := by
      rw [getLast?_append_right _ _ (by simp : ("github.com/").data ++ proj ++
        ("/issues/").data ++ num ≠ [])]
      exact getLast?_append_right _ num hne
    have htrim2 := trimSpace_head_digits _ num hne hdig hh2 hlast2
    have hsne2 : ("https://").data ++ (("github.com/").data ++ proj ++
        ("/issues/").data ++ num) ≠ [] := by simp
    have hsplit2 : splitIssueID (("https://").data ++ (("github.com/").data ++
        proj ++ ("/issues/").data ++ num)) = (proj, num) := by
      rw [splitIssueID_strip_https _ (by simp [List.isPrefixOf_cons₂])]
      exact splitIssueID_github proj num hdig
    exact parseIssueNumber_of_split _ proj num v hne hdig hval hbound hpos
      hsne2 htrim2 hsplit2
  · intro num v hne hdig hval hbound hpos
    have hh : ∀ c, ((("go.dev/issues/").data ++ num)).head? = some c →
        goIsSpace c = false := by
      intro c hc
      rw [show ((("go.dev/issues/").data ++ num)).head? = some ('g') from rfl] at hc
      injection hc with h2
      rw [← h2]
      decide
    have hlast : ((("go.dev/issues/").data ++ num)).getLast? = num.getLast? :=
      getLast?_append_right _ num hne
    have htrim := trimSpace_head_digits _ num hne hdig hh hlast
    have hsne : ("go.dev/issues/").data ++ num ≠ [] := by simp
    refine ⟨parseIssueNumber_of_split _ _ num v hne hdig hval hbound hpos
      hsne htrim (splitIssueID_godev num), ?_⟩
    have hh2 : ∀ c, ((("https://").data ++ (("go.dev/issues/").data ++
        num))).head? = some c → goIsSpace c = false := by
      intro c hc
      rw [show ((("https://").data ++ (("go.dev/issues/").data ++
        num))).head? = some ('h') from rfl] at hc
      injection hc with h2
      rw [← h2]
      decide
    have hlast2 : ((("https://").data ++ (("go.dev/issues/").data ++
        num))).getLast? = num.getLast? := by
      rw [getLast?_append_right _ _ (by simp : ("go.dev/issues/").data ++
        num ≠ [])]
      exact getLast?_append_right _ num hne
    have htrim2 := trimSpace_head_digits _ num hne hdig hh2 hlast2
    have hsne2 : ("https://").data ++ (("go.dev/issues/").data ++ num) ≠ [] := by
      simp
    have hsplit2 : splitIssueID (("https://").data ++ (("go.dev/issues/").data ++
        num)) = ((("golang/go").data), num) := by
      rw [splitIssueID_strip_https _ (by simp [List.isPrefixOf_cons₂])]
      exact splitIssueID_godev num
    exact parseIssueNumber_of_split _ _ num v hne hdig hval hbound hpos
      hsne2 htrim2 hsplit2
  · intro proj num v hne hdig hval hbound hpos h7 hgh hgo hhash hh
    have hlast : ((proj ++ ('#') :: num)).getLast? = num.getLast? := by
      rw [show proj ++ ('#') :: num = (proj ++ [('#')]) ++ num by simp]
      exact getLast?_append_right _ num hne
    have htrim := trimSpace_head_digits _ num hne hdig hh hlast
    have hsne : proj ++ ('#') :: num ≠ [] := by simp
    exact parseIssueNumber_of_split _ proj num v hne hdig hval hbound hpos
      hsne htrim (splitIssueID_hash proj num h7 hgh hgo hhash)

/-- C9 witness: the parser clauses applied at concrete inputs — a
whitespace-only query, a non-numeric query, and the recognized golang/go
forms for issue 12345. -/
theorem c9_parse_issue_number_witness :
    ((∀ c ∈ (("  ").data), goIsSpace c = true) ∧
      parseIssueNumber (("  ").data) = some ([], 0)) ∧
    (trimSpace (("abc").data) ≠ [] ∧
      (parseIssueNumber (("abc").data) = none ↔
        ∀ n : Int, goParseInt64 ((splitIssueID (trimSpace (("abc").data))).2) =
          some n → n ≤ 0)) ∧
    parseIssueNumber (("github.com/").data ++ ("golang/go").data ++
        ("/issues/").data ++ ("12345").data) =
      some ((("golang/go").data), ((12345 : Nat) : Int)) ∧
    parseIssueNumber (("https://").data ++ (("github.com/").data ++
        ("golang/go").data ++ ("/issues/").data ++ ("12345").data)) =
      some ((("golang/go").data), ((12345 : Nat) : Int)) ∧
    parseIssueNumber (("go.dev/issues/").data ++ ("12345").data) =
      some ((("golang/go").data), ((12345 : Nat) : Int)) ∧
    parseIssueNumber (("golang/go").data ++ ('#') :: ("12345").data) =
      some ((("golang/go").data), ((12345 : Nat) : Int)) := by
  refine ⟨⟨by decide, ?_⟩, ⟨by decide, ?_⟩, ?_, ?_, ?_, ?_⟩
  · exact c9_parse_issue_number.1 (("  ").data) (by decide)
  · exact c9_parse_issue_number.2.1 (("abc").data) (by decide)
  · exact (c9_parse_issue_number.2.2.1 (("golang/go").data) (("12345").data)
      12345 (by decide) (by decide) (by decide) (by decide) (by decide)).1
  · exact (c9_parse_issue_number.2.2.1 (("golang/go").data) (("12345").data)
      12345 (by decide) (by decide) (by decide) (by decide) (by decide)).2
  · exact (c9_parse_issue_number.2.2.2.1 (("12345").data) 12345
      (by decide) (by decide) (by decide) (by decide) (by decide)).1
  · exact c9_parse_issue_number.2.2.2.2 (("golang/go").data) (("12345").data)
      12345 (by decide) (by decide) (by decide) (by decide) (by decide)
      (by decide) (by decide) (by decide) (by decide)
      (by
        intro c hc
        rw [show ((("golang/go").data ++ ('#') :: ("12345").data)).head? =
          some ('g') from rfl] at hc
        injection hc with h2
        rw [← h2]
        decide)
